import Mathlib

/-! ## String helpers (Python `str.lower`, substring test, `str.split`) -/

/-- Python `str.lower`, restricted to ASCII letters and the Cyrillic
alphabet (`А`-`Я` is U+0410-U+042F, mapped to U+0430-U+044F, plus `Ё`),
which covers every character this code base compares case-insensitively. -/
def pyLowerChar (c : Char) : Char :=
  if 'A' ≤ c ∧ c ≤ 'Z' then Char.ofNat (c.toNat + 32)
  else if 'А' ≤ c ∧ c ≤ 'Я' then Char.ofNat (c.toNat + 32)
  else if c = 'Ё' then 'ё'
  else c

/-- Python `str.lower` on a whole string. -/
def pyLower (s : String) : String :=
  String.mk (s.data.map pyLowerChar)

/-- Is `pre` a prefix of `l` (character lists)? -/
def charsPrefix : List Char → List Char → Bool
  | [], _ => true
  | _ :: _, [] => false
  | a :: as, b :: bs => a == b && charsPrefix as bs

/-- Python's substring test `needle in hay` on character lists. -/
def charsContain (hay needle : List Char) : Bool :=
  if charsPrefix needle hay then true
  else
    match hay with
    | [] => false
    | _ :: rest => charsContain rest needle

/-- Python's substring test `needle in hay` on strings. -/
def strContains (hay needle : String) : Bool :=
  charsContain hay.data needle.data

/-! ## Filter engine (`src/filters/listing_filter.py`) -/

/-- A normalized listing record as produced by the source adapters
(`parse_listings` of each parser): the dict keys are always present,
but `rooms`, the two prices, and `landlord` can be Python `None`.
`listing_id` is the MD5 hex digest of the canonical URL in the source;
the hash function itself is not modelled, the id is carried as an
opaque string. -/
structure Listing where
  listing_id : String
  source : String
  address : String
  rooms : Option Int
  price_byn : Option ℚ
  price_usd : Option ℚ
  landlord : Option String
  url : String
  deriving Repr, DecidableEq

/-- A user filter dictionary (`get_default_filters` shape): each key is
either set or `None`. -/
structure FilterSpec where
  rooms : Option Int := none
  min_price_usd : Option ℚ := none
  max_price_usd : Option ℚ := none
  landlord : Option String := none
  city : Option String := none
  deriving Repr, DecidableEq

/-- Python exceptions surfaced by the modelled code. -/
inductive PyError
  | attributeError
  deriving Repr, DecidableEq

/-- The city part of `ListingFilter.matches` (listing_filter.py lines 70-79):
skip the constraint when the lowered address is empty or contains the
"адрес не указан" marker, otherwise require the lowered city as a
substring of the lowered address. -/
def matchesCity (f : FilterSpec) (l : Listing) : Except PyError Bool :=
  match f.city with
  | some c =>
    let address := pyLower l.address
    let city := pyLower c
    if address = "" ∨ strContains address "адрес не указан" then .ok true
    else if ¬ strContains address city then .ok false
    else .ok true
  | none => .ok true

/-- `ListingFilter.matches` (listing_filter.py lines 33-81).  The guards
appear in source order; `listing.get('landlord', '').lower()` raises
`AttributeError` when the stored value is `None`. -/
def ListingFilter.matches (f : FilterSpec) (l : Listing) : Except PyError Bool :=
  if (match f.rooms with | some r => l.rooms != some r | none => false) then .ok false
  else if (match f.min_price_usd, l.price_usd with
           | some m, some p => decide (p < m) | _, _ => false) then .ok false
  else if (match f.max_price_usd, l.price_usd with
           | some m, some p => decide (p > m) | _, _ => false) then .ok false
  else
    match f.landlord with
    | some fl =>
      match l.landlord with
      | none => .error .attributeError
      | some s =>
        if pyLower s ≠ pyLower fl then .ok false
        else matchesCity f l
    | none => matchesCity f l

/-- The fallback record built by `KufarParser.parse_listings`
(kufar.py lines 163-174) when an `ad_id` is found in page scripts but no
container or JSON data for it: every data field is absent and
`landlord` is Python `None`.  The `listing_id` argument stands for the
MD5 hex digest of `href`, which is not modelled. -/
def kufarFallbackListing (lid href : String) : Listing :=
  { listing_id := lid
    source := "Kufar"
    address := "Адрес не указан"
    rooms := none
    price_byn := none
    price_usd := none
    landlord := none
    url := href }

/-! ## Dedup store (`src/database/models.py`) -/

/-- One row of the `listings` table: the stored listing fields plus the
JSON-decoded `sent_to_users` list. -/
structure DbRow where
  data : Listing
  sent : List Int
  deriving Repr, DecidableEq

/-- The `listings` table in insertion order.  The `listing_id` column is
UNIQUE, which `Database.add_listing` maintains. -/
abbrev Db := List DbRow

/-- `SELECT ... WHERE listing_id = ?` + `fetchone`. -/
def lookupRow (db : Db) (lid : String) : Option DbRow :=
  db.find? (fun r => r.data.listing_id == lid)

/-- The listing ids present in the table. -/
def dbKeys (db : Db) : List String :=
  db.map (fun r => r.data.listing_id)

/-- SQLite errors that `Database.add_listing` distinguishes:
`sqlite3.IntegrityError` (UNIQUE violation) and any other
`sqlite3.Error` (I/O and similar). -/
inductive SqliteError
  | integrityError
  | ioError
  deriving Repr, DecidableEq

/-- The `INSERT INTO listings ...` statement inside
`Database.add_listing` (models.py lines 117-127).  `fault` injects a
storage failure of the underlying store; without a fault the insert
raises `IntegrityError` exactly when the UNIQUE `listing_id` already
exists, and otherwise appends a fresh row with `sent_to_users = []`. -/
def insertListing (db : Db) (l : Listing) (fault : Option SqliteError) :
    Except SqliteError Db :=
  match fault with
  | some e => .error e
  | none =>
    if (lookupRow db l.listing_id).isSome then .error .integrityError
    else .ok (db ++ [⟨l, []⟩])

/-- `Database.add_listing` (models.py lines 87-134): returns `true` and
commits on success; catches `IntegrityError` (listing already exists)
and every other `sqlite3.Error`, returning `false` with the table
unchanged in both cases. -/
def Database.add_listing (db : Db) (l : Listing) (fault : Option SqliteError) :
    Bool × Db :=
  match insertListing db l fault with
  | .ok db' => (true, db')
  | .error _ => (false, db)

/-- `Database.is_listing_sent_to_user` (models.py lines 136-161). -/
def Database.is_listing_sent_to_user (db : Db) (lid : String) (uid : Int) : Bool :=
  match lookupRow db lid with
  | some r => decide (uid ∈ r.sent)
  | none => false

/-- `Database.mark_listing_sent` (models.py lines 163-188): read the
`sent_to_users` of the row, and only if the user is not yet present,
append it and write the list back (`UPDATE ... WHERE listing_id = ?`). -/
def Database.mark_listing_sent (db : Db) (lid : String) (uid : Int) : Db :=
  match lookupRow db lid with
  | none => db
  | some r =>
    if uid ∈ r.sent then db
    else db.map (fun row =>
      if row.data.listing_id = lid then { row with sent := r.sent ++ [uid] }
      else row)

/-! ## Listing service and periodic check
(`src/bot/utils/listing_service.py`, `src/bot/main.py`) -/

/-- The per-listing loop of `ListingService.fetch_and_filter_listings`
(listing_service.py lines 79-97): for every fetched listing that passes
the filter, call `add_listing` (committing the row), and keep the
listing only when it was new and not yet sent to this user.  An
exception from `matches` aborts the loop; rows added before the
exception stay committed. -/
def filterLoop (f : FilterSpec) (uid : Int) :
    Db → List Listing → Except PyError (List Listing) × Db
  | db, [] => (.ok [], db)
  | db, l :: rest =>
    match ListingFilter.matches f l with
    | .error e => (.error e, db)
    | .ok m =>
      if m then
        let p := Database.add_listing db l none
        let keep := p.1 && !(Database.is_listing_sent_to_user p.2 l.listing_id uid)
        match filterLoop f uid p.2 rest with
        | (.ok acc, dbf) => (.ok (if keep then l :: acc else acc), dbf)
        | (.error e, dbf) => (.error e, dbf)
      else filterLoop f uid db rest

/-- `ListingService.fetch_and_filter_listings` (listing_service.py lines
29-105), with the listings fetched from the four sources supplied as
input: filter, record, and finally truncate with `filtered_listings[:15]`. -/
def ListingService.fetch_and_filter_listings (f : FilterSpec) (uid : Int)
    (db : Db) (fetched : List Listing) : Except PyError (List Listing) × Db :=
  match filterLoop f uid db fetched with
  | (.ok ls, db') => (.ok (ls.take 15), db')
  | (.error e, db') => (.error e, db')

/-- The per-user filter loop of `periodic_check` (main.py lines 41-48):
one `fetch_and_filter_listings` call per active filter, concatenating
into `all_listings`. -/
def runFilterCalls (uid : Int) :
    Db → List (FilterSpec × List Listing) → Except PyError (List Listing) × Db
  | db, [] => (.ok [], db)
  | db, (f, fetched) :: rest =>
    match ListingService.fetch_and_filter_listings f uid db fetched with
    | (.error e, db') => (.error e, db')
    | (.ok ls, db') =>
      match runFilterCalls uid db' rest with
      | (.ok more, dbf) => (.ok (ls ++ more), dbf)
      | (.error e, dbf) => (.error e, dbf)

/-- The duplicate-removal loop of `periodic_check` (main.py lines 50-56):
keep the first occurrence of each `listing_id`. -/
def dedupById (seen : List String) : List Listing → List Listing
  | [] => []
  | l :: rest =>
    if seen.contains l.listing_id then dedupById seen rest
    else l :: dedupById (l.listing_id :: seen) rest

/-- The send loop of `periodic_check` (main.py lines 61-74): send each
listing to the user (recorded as a `(user_id, listing_id)` delivery
event) and mark it sent. -/
def sendLoop (uid : Int) : Db → List Listing → List (Int × String) × Db
  | db, [] => ([], db)
  | db, l :: rest =>
    let db' := Database.mark_listing_sent db l.listing_id uid
    let p := sendLoop uid db' rest
    ((uid, l.listing_id) :: p.1, p.2)

/-- One user's iteration of `periodic_check` (main.py lines 34-74):
collect listings over all active filters, deduplicate, truncate with
`unique_listings[-15:]`, then send and mark. -/
def periodicCheckUser (db : Db) (uid : Int)
    (calls : List (FilterSpec × List Listing)) :
    Except PyError (List (Int × String)) × Db :=
  match runFilterCalls uid db calls with
  | (.error e, db') => (.error e, db')
  | (.ok all, db') =>
    let uniq := dedupById [] all
    let toSend := if uniq.length > 15 then uniq.drop (uniq.length - 15) else uniq
    let p := sendLoop uid db' toSend
    (.ok p.1, p.2)

/-- A user's share of one polling cycle: the user id, and for each of the
user's active filters the listings the sources returned for that
`fetch_and_filter_listings` call. -/
structure UserCycle where
  uid : Int
  calls : List (FilterSpec × List Listing)

/-- `periodic_check` (main.py lines 23-74): iterate over the users with
active filters.  An uncaught exception aborts the job callback, so
later users of the same cycle are not processed (their deliveries are
lost for this cycle); rows committed before the exception remain. -/
def periodicCheck : Db → List UserCycle → List (Int × String) × Db
  | db, [] => ([], db)
  | db, uc :: rest =>
    match periodicCheckUser db uc.uid uc.calls with
    | (.error _, db') => ([], db')
    | (.ok ds, db') =>
      let p := periodicCheck db' rest
      (ds ++ p.1, p.2)

/-- Repeated polling cycles: `job_queue.run_repeating(periodic_check, ...)`
(main.py lines 117-123) runs the job again even after a run raised. -/
def runCycles : Db → List (List UserCycle) → List (Int × String) × Db
  | db, [] => ([], db)
  | db, c :: cs =>
    let p := periodicCheck db c
    let q := runCycles p.2 cs
    (p.1 ++ q.1, q.2)

/-- 20 matching listings, ids L0..L19, fetched in that order. -/
def capDemoListing (i : Nat) : Listing :=
  { listing_id := "L" ++ toString i
    source := "Kufar"
    address := "Минск"
    rooms := some 2
    price_byn := none
    price_usd := some 500
    landlord := some "Собственник"
    url := "u" ++ toString i }

def capDemoFetched : List Listing := (List.range 20).map capDemoListing

def capDemoCycle : List UserCycle := [⟨1, [({}, capDemoFetched)]⟩]

/-! ## Price extraction (`src/parsers/base.py`, `BaseParser.extract_price`) -/

/-- Python `\s` for the characters reachable after this code's text
normalization (regular whitespace; `\xa0` and ` ` have already
been replaced by spaces at every call site of `\s`). -/
def isPySpace (c : Char) : Bool :=
  c == ' ' || c == '\t' || c == '\n' || c == '\u000b' || c == '\u000c' || c == '\r'

/-- Words of a character list, split on Python whitespace
(`str.split()` with no argument). -/
def pyWords (cs : List Char) : List (List Char) :=
  (cs.foldr
    (fun c acc =>
      if isPySpace c then [] :: acc
      else
        match acc with
        | [] => [[c]]
        | w :: ws => (c :: w) :: ws)
    [[]]).filter (fun w => !w.isEmpty)

/-- The text normalization at the top of `extract_price` (base.py lines
94-97): drop commas, replace `\xa0` and ` ` by spaces, then
collapse all whitespace runs (`' '.join(text.split())`). -/
def pyNormalize (text : String) : List Char :=
  let cs := (text.data.filter (fun c => c ≠ ',')).map
    (fun c => if c = ' ' ∨ c = ' ' then ' ' else c)
  List.intercalate [' '] (pyWords cs)

/-- The `(?:\s?\d+)*` continuation of the numeric group: greedily
consume further digit runs, each optionally preceded by one whitespace
character.  Backtracking over the iteration count can never rescue a
failed continuation for the patterns of `extract_price` (whatever
follows the group can never start with a digit or whitespace-digit),
so the greedy scan is exact. -/
def numTail : List Char → List Char × List Char
  | [] => ([], [])
  | c :: rest =>
    if c.isDigit then
      let p := numTail rest
      (c :: p.1, p.2)
    else if isPySpace c then
      match rest with
      | [] => ([], [c])
      | d :: rest2 =>
        if d.isDigit then
          let p := numTail rest2
          (c :: d :: p.1, p.2)
        else ([], c :: rest)
    else ([], c :: rest)

/-- The optional decimal part `(?:\.\d+)?`, greedy. -/
def decPart : List Char → List Char × List Char
  | [] => ([], [])
  | '.' :: rest =>
    match rest with
    | d :: _ =>
      if d.isDigit then
        ('.' :: rest.takeWhile (·.isDigit), rest.dropWhile (·.isDigit))
      else ([], '.' :: rest)
    | [] => ([], ['.'])
  | other => ([], other)

/-- The capturing group `(\d+(?:\s?\d+)*(?:\.\d+)?)` of the price
patterns, matched greedily at the current position: returns the group
text and the remaining input, or `none` when no digit starts here. -/
def numGroupAt (cs : List Char) : Option (List Char × List Char) :=
  match cs with
  | [] => none
  | c :: rest =>
    if c.isDigit then
      let p := numTail rest
      let q := decPart p.2
      some (c :: p.1 ++ q.1, q.2)
    else none

/-- `\s*`. -/
def afterSpaces (cs : List Char) : List Char :=
  cs.dropWhile isPySpace

/-- Case-insensitive literal match (`re.IGNORECASE`); `lit` is given in
lowercase.  Returns the rest of the input on success. -/
def litCI : List Char → List Char → Option (List Char)
  | [], rest => some rest
  | _ :: _, [] => none
  | a :: as, b :: bs => if pyLowerChar b == a then litCI as bs else none

/-- `(\NUM)\s*\$` — `usd_patterns[0]`. -/
def usdPat1 (cs : List Char) : Option (List Char) :=
  match numGroupAt cs with
  | none => none
  | some (g, rest) =>
    match afterSpaces rest with
    | '$' :: _ => some g
    | _ => none

/-- `\$\s*(\NUM)` — `usd_patterns[1]`. -/
def usdPat2 (cs : List Char) : Option (List Char) :=
  match cs with
  | '$' :: rest => (numGroupAt (afterSpaces rest)).map (·.1)
  | _ => none

/-- `(\NUM)\s*lit` for a case-insensitive literal suffix
(`usd_patterns[2]` with "usd", `usd_patterns[4]` with "долл",
and the spirit of the BYN patterns). -/
def numThenLit (lit : List Char) (cs : List Char) : Option (List Char) :=
  match numGroupAt cs with
  | none => none
  | some (g, rest) =>
    if (litCI lit (afterSpaces rest)).isSome then some g else none

/-- `lit\s*(\NUM)` — `usd_patterns[3]` with "usd". -/
def litThenNum (lit : List Char) (cs : List Char) : Option (List Char) :=
  match litCI lit cs with
  | none => none
  | some rest => (numGroupAt (afterSpaces rest)).map (·.1)

/-- The alternation `(?:BYN|р\.|руб|бел\.?\s*руб)` of `byn_patterns[0]`,
tested at the current position. -/
def bynAltAt (cs : List Char) : Bool :=
  (litCI "byn".data cs).isSome ||
  (match cs with
   | b :: '.' :: _ => pyLowerChar b == 'р'
   | _ => false) ||
  (litCI "руб".data cs).isSome ||
  (match litCI "бел".data cs with
   | none => false
   | some rest =>
     let rest2 := match rest with | '.' :: r => r | _ => rest
     (litCI "руб".data (afterSpaces rest2)).isSome)

/-- `(\NUM)\s*(?:BYN|р\.|руб|бел\.?\s*руб)` — `byn_patterns[0]`. -/
def bynPat1 (cs : List Char) : Option (List Char) :=
  match numGroupAt cs with
  | none => none
  | some (g, rest) => if bynAltAt (afterSpaces rest) then some g else none

/-- `re.search`: try the pattern at every position, leftmost match wins. -/
def reSearch (p : List Char → Option (List Char)) : List Char → Option (List Char)
  | [] => p []
  | c :: rest =>
    match p (c :: rest) with
    | some g => some g
    | none => reSearch p rest

/-- Digit run to a natural number. -/
def digitsToNat (cs : List Char) : Nat :=
  cs.foldl (fun n c => n * 10 + (c.toNat - 48)) 0

/-- Python `float(...)` on the strings produced by the price group
(digits with an optional fractional part), as an exact rational. -/
def parseDecimal (cs : List Char) : Option ℚ :=
  let intPart := cs.takeWhile (·.isDigit)
  let rest := cs.dropWhile (·.isDigit)
  match rest with
  | [] => if intPart.isEmpty then none else some (digitsToNat intPart)
  | '.' :: frac =>
    if frac.all (·.isDigit) && !frac.isEmpty && !intPart.isEmpty then
      some ((digitsToNat intPart : ℚ) + (digitsToNat frac : ℚ) / ((10 : ℚ) ^ frac.length))
    else none
  | _ => none

/-- The per-currency scan loop of `extract_price` (base.py lines 107-117
and 125-135): for each pattern in order, `re.search`; on a match,
strip spaces from the group, parse it, and assign it to the price
variable; stop at the first value inside `(0, 10000)`.  A parsed value
outside that range stays assigned while the loop moves on, so it is
returned if no later pattern assigns something else. -/
def scanPrices : List (List Char → Option (List Char)) → List Char → Option ℚ → Option ℚ
  | [], _, acc => acc
  | p :: ps, text, acc =>
    match reSearch p text with
    | none => scanPrices ps text acc
    | some g =>
      match parseDecimal (g.filter (fun c => !(c == ' ' || c == ' '))) with
      | none => scanPrices ps text acc
      | some v =>
        if 0 < v ∧ v < 10000 then some v else scanPrices ps text (some v)

/-- The USD pattern list of `extract_price` (base.py lines 100-106). -/
def usdPatterns : List (List Char → Option (List Char)) :=
  [usdPat1, usdPat2, numThenLit "usd".data, litThenNum "usd".data,
   numThenLit "долл".data]

/-- The BYN pattern list of `extract_price` (base.py lines 120-124). -/
def bynPatterns : List (List Char → Option (List Char)) :=
  [bynPat1, numThenLit "р/мес".data, numThenLit "руб/мес".data]

/-- `BaseParser.extract_price` (base.py lines 81-137): normalize the
text, scan the USD patterns, scan the BYN patterns, and return
`(price_byn, price_usd)`. -/
def BaseParser.extract_price (text : String) : Option ℚ × Option ℚ :=
  let nt := pyNormalize text
  let price_usd := scanPrices usdPatterns nt none
  let price_byn := scanPrices bynPatterns nt none
  (price_byn, price_usd)

/-! ## Kufar JSON price normalization
(`src/parsers/kufar.py`, `_parse_listing_from_json` lines 588-627) -/

/-- The price block of `KufarParser._parse_listing_from_json`: the raw
`price_byn` / `price_usd` JSON numbers are taken as given; all unit
corrections live inside the `if price_usd is not None:` branch.
USD above 1000 is assumed to be cents and divided by 100 (the
`elif price_usd > 5000` arm is unreachable).  BYN is corrected only when
it exceeds 10000: by the exchange-ratio check against a positive USD
(`ratio > 10`), or by the absolute `> 100000` check when USD is zero or
negative (`if price_usd and price_usd > 0` is false). -/
def kufarNormalizePrices (price_byn price_usd : Option ℚ) : Option ℚ × Option ℚ :=
  match price_usd with
  | none => (price_byn, none)
  | some u0 =>
    let u := if u0 > 1000 then u0 / 100 else u0
    match price_byn with
    | none => (none, some u)
    | some b =>
      if b > 10000 then
        if u > 0 then
          if b / u > 10 then (some (b / 100), some u) else (some b, some u)
        else
          if b > 100000 then (some (b / 100), some u) else (some b, some u)
      else (some b, some u)

/-! ## Landlord classification
(`kufar.py` lines 753-762, `onliner.py` lines 536-553, and the priority
chain of `_parse_listing_from_json`, kufar.py lines 656-700) -/

/-- The owner keyword list shared verbatim by
`KufarParser._extract_landlord` and `OnlinerParser._extract_landlord`. -/
def ownerKeywords : List String :=
  ["собственник", "от собственника", "без посредников",
   "напрямую от собственника", "хозяин", "владелец",
   "от хозяина", "напрямую", "без агентств"]

/-- `_extract_landlord` (identical bodies in kufar.py lines 753-762 and
onliner.py lines 536-553): `"Собственник"` when any owner keyword occurs
in the lowered text, `"Агентство"` otherwise.  There is no agency
keyword list and no Owner default. -/
def extractLandlord (text : String) : String :=
  if ownerKeywords.any (fun k => strContains (pyLower text) k) then "Собственник"
  else "Агентство"

/-- One entry of the `ad_parameters` JSON array, reduced to the fields
the landlord chain reads: `p` and `vl or v`. -/
structure AdParam where
  p : String
  vl : String
  deriving Repr, DecidableEq

/-- Priority 3 of the landlord chain (kufar.py lines 679-691): scan
`ad_parameters` for a `flat_rent_for_whom` entry whose value holds an
owner keyword (then `"Собственник"`) or an agency keyword (then
`"Агентство"`); entries without either keyword are skipped. -/
def landlordFromParams : List AdParam → Option String
  | [] => none
  | param :: rest =>
    if param.p == "flat_rent_for_whom" && param.vl != "" then
      if ["собственник", "от собственника", "частное"].any
          (fun k => strContains (pyLower param.vl) k) then some "Собственник"
      else if ["агент", "агентство", "компания"].any
          (fun k => strContains (pyLower param.vl) k) then some "Агентство"
      else landlordFromParams rest
    else landlordFromParams rest

/-- The landlord priority chain of `KufarParser._parse_listing_from_json`
(kufar.py lines 656-700): 1. the structured `company_ad` flag;
2. `account_type` keywords; 3. the `flat_rent_for_whom` parameter;
4. `_extract_landlord` over a non-empty subject; 5. default
`"Собственник"`. -/
def kufarLandlordFromJson (company_ad : Option Bool) (account_type : String)
    (ad_parameters : List AdParam) (subject : String) : String :=
  let l1 : Option String :=
    match company_ad with
    | some false => some "Собственник"
    | some true => some "Агентство"
    | none => none
  let l2 : Option String :=
    match l1 with
    | some s => some s
    | none =>
      if account_type != "" then
        if ["owner", "собственник", "private", "частное"].any
            (fun k => strContains (pyLower account_type) k) then some "Собственник"
        else if ["agent", "агент", "company", "компания"].any
            (fun k => strContains (pyLower account_type) k) then some "Агентство"
        else none
      else none
  let l3 : Option String :=
    match l2 with
    | some s => some s
    | none => landlordFromParams ad_parameters
  let l4 : Option String :=
    match l3 with
    | some s => some s
    | none => if subject != "" then some (extractLandlord subject) else none
  match l4 with
  | some s => s
  | none => "Собственник"

/-! ## Transport selection (`kufar.py` lines 43-50,
`base.py` `fetch_page_prefer_browser` lines 59-66) -/

/-- The two page transports of §6 of the spec. -/
inductive Transport
  | browser
  | http
  deriving Repr, DecidableEq

/-- Python truthiness of an `Optional[str]` page body: `None` and the
empty string are falsy. -/
def truthyHtml : Option String → Bool
  | none => false
  | some s => s != ""

/-- The fetch sequence of `KufarParser.parse_listings` (kufar.py lines
43-50): fetch via the Selenium browser session first; only `if not
html:` fall back to the plain `fetch_page` HTTP request.  The returned
trace lists the transports in the order they were attempted. -/
def kufarFetchHtml (browser_html http_html : Option String) :
    Option String × List Transport :=
  if truthyHtml browser_html then (browser_html, [.browser])
  else (http_html, [.browser, .http])

/-- `BaseParser.fetch_page_prefer_browser` (base.py lines 59-66): when a
Selenium session was supplied, use it exclusively (its result is
returned even when empty or `None`); otherwise use the HTTP fetch.
There is no fallback from one transport to the other. -/
def fetchPagePreferBrowser (has_selenium : Bool)
    (browser_html http_html : Option String) : Option String × List Transport :=
  if has_selenium then (browser_html, [.browser])
  else (http_html, [.http])

/-! ## Claim-side filter predicates (per-field policy of §4.4 / C4).
These definitions follow the specification's words, to be compared with
`ListingFilter.matches` from the source. -/

/-- Claim: a set rooms predicate requires the room count to be present
and exactly equal; unset is always satisfied. -/
def claimRoomsSat (f : FilterSpec) (l : Listing) : Bool :=
  match f.rooms with
  | none => true
  | some r => l.rooms == some r

/-- Claim: a set minimum USD bound is satisfied when the listing has no
USD price, otherwise it is the standard inequality. -/
def claimMinSat (f : FilterSpec) (l : Listing) : Bool :=
  match f.min_price_usd, l.price_usd with
  | none, _ => true
  | some _, none => true
  | some m, some p => decide (m ≤ p)

/-- Claim: a set maximum USD bound is satisfied when the listing has no
USD price, otherwise it is the standard inequality. -/
def claimMaxSat (f : FilterSpec) (l : Listing) : Bool :=
  match f.max_price_usd, l.price_usd with
  | none, _ => true
  | some _, none => true
  | some m, some p => decide (p ≤ m)

/-- Claim: a set landlord predicate is a case-insensitive exact match. -/
def claimLandlordSat (f : FilterSpec) (l : Listing) : Bool :=
  match f.landlord, l.landlord with
  | none, _ => true
  | some fl, some s => pyLower s == pyLower fl
  | some _, none => false

/-- Claim (as stated): a set city predicate is satisfied when the
address **is** the explicit "unknown" marker, otherwise it requires a
case-insensitive substring match. -/
def claimCitySat (f : FilterSpec) (l : Listing) : Bool :=
  match f.city with
  | none => true
  | some c =>
    if l.address == "Адрес не указан" then true
    else strContains (pyLower l.address) (pyLower c)

/-- The claim's matching predicate: the conjunction of the per-field
policies as the claim states them. -/
def claimMatches (f : FilterSpec) (l : Listing) : Bool :=
  claimRoomsSat f l && claimMinSat f l && claimMaxSat f l &&
  claimLandlordSat f l && claimCitySat f l

/-- Amended city policy (what the code does): a set city predicate is
satisfied when the lowered address is empty or **contains** the
lowered "адрес не указан" marker, otherwise it requires a
case-insensitive substring match. -/
def specCitySat (f : FilterSpec) (l : Listing) : Bool :=
  match f.city with
  | none => true
  | some c =>
    let a := pyLower l.address
    if a == "" || strContains a "адрес не указан" then true
    else strContains a (pyLower c)

/-- The amended matching predicate: the claim's per-field policies with
the corrected city rule. -/
def specMatches (f : FilterSpec) (l : Listing) : Bool :=
  claimRoomsSat f l && claimMinSat f l && claimMaxSat f l &&
  claimLandlordSat f l && specCitySat f l

/-! ## Delivery-state lemmas (C1) -/

/-- The recipient `uid` is recorded as already-notified for `lid`. -/
def sentTo (db : Db) (lid : String) (uid : Int) : Prop :=
  Database.is_listing_sent_to_user db lid uid = true

/-- The row update applied by `mark_listing_sent`. -/
def markUpd (lid : String) (newSent : List Int) (row : DbRow) : DbRow :=
  if row.data.listing_id = lid then { row with sent := newSent } else row

/-- The invariant carried through every stage of the pipeline: the set
of stored ids only grows, an id already stored is never part of the
stage's first-seen output, output ids become stored, no id is output
twice, and the recorded recipients only grow. -/
structure StageOk (db : Db) (out : List String) (db' : Db) : Prop where
  keysMono : ∀ lid, lid ∈ dbKeys db → lid ∈ dbKeys db'
  oldNotOut : ∀ lid, lid ∈ dbKeys db → lid ∉ out
  outKeys : ∀ lid, lid ∈ out → lid ∈ dbKeys db'
  outOnce : ∀ lid, out.count lid ≤ 1
  sentMono : ∀ lid uid, sentTo db lid uid → sentTo db' lid uid

/-- First-seen output of a pipeline stage that can raise: an aborted
stage delivered nothing. -/
def outOf : Except PyError (List Listing) → List String
  | .ok ls => ls.map (fun l => l.listing_id)
  | .error _ => []

/-- Delivered listing ids of one user's periodic-check result. -/
def outOfD : Except PyError (List (Int × String)) → List String
  | .ok ds => ds.map Prod.snd
  | .error _ => []

/-! ## Basic store lemmas -/

theorem find?_append_of_none {α} (p : α → Bool) (l1 l2 : List α)
    (h : l1.find? p = none) : (l1 ++ l2).find? p = l2.find? p := by
  induction l1 with
  | nil => simp
  | cons a rest ih =>
    rw [List.find?_cons] at h
    rw [List.cons_append, List.find?_cons]
    cases hp : p a with
    | true => simp [hp] at h
    | false =>
      simp only [hp] at h ⊢
      exact ih h

theorem find?_append_of_some {α} (p : α → Bool) (l1 l2 : List α) (a : α)
    (h : l1.find? p = some a) : (l1 ++ l2).find? p = some a := by
  induction l1 with
  | nil => simp at h
  | cons b rest ih =>
    rw [List.find?_cons] at h
    rw [List.cons_append, List.find?_cons]
    cases hp : p b with
    | true => simpa [hp] using h
    | false =>
      simp only [hp] at h ⊢
      exact ih h

theorem lookupRow_isSome_iff (db : Db) (lid : String) :
    (lookupRow db lid).isSome = true ↔ lid ∈ dbKeys db := by
  induction db with
  | nil => simp [lookupRow, dbKeys]
  | cons r rest ih =>
    rw [lookupRow, List.find?_cons]
    cases hp : (r.data.listing_id == lid) with
    | true =>
      simp only [Option.isSome_some, dbKeys, List.map_cons, List.mem_cons]
      have : r.data.listing_id = lid := by simpa using hp
      simp [this]
    | false =>
      have : ¬ r.data.listing_id = lid := by simpa using hp
      simp only [dbKeys, List.map_cons, List.mem_cons]
      rw [show (lid = r.data.listing_id ∨ lid ∈ List.map (fun r => r.data.listing_id) rest)
            ↔ (lid ∈ dbKeys rest) by
        constructor
        · rintro (h | h)
          · exact absurd h.symm this
          · exact h
        · exact fun h => Or.inr h]
      exact ih

theorem lookupRow_eq_none_iff (db : Db) (lid : String) :
    lookupRow db lid = none ↔ lid ∉ dbKeys db := by
  rw [← lookupRow_isSome_iff]
  cases lookupRow db lid <;> simp

theorem add_listing_of_fresh (db : Db) (l : Listing)
    (h : l.listing_id ∉ dbKeys db) :
    Database.add_listing db l none = (true, db ++ [⟨l, []⟩]) := by
  have hn : lookupRow db l.listing_id = none := (lookupRow_eq_none_iff db _).mpr h
  simp [Database.add_listing, insertListing, hn]

theorem add_listing_of_present (db : Db) (l : Listing)
    (h : l.listing_id ∈ dbKeys db) :
    Database.add_listing db l none = (false, db) := by
  have hs : (lookupRow db l.listing_id).isSome = true :=
    (lookupRow_isSome_iff db _).mpr h
  simp [Database.add_listing, insertListing, hs]

/-- **C3.** `Database.add_listing` is first-write-wins: the first call for
a fresh `listing_id` commits the row (retrievable afterwards with its
fields intact) and returns `true`; every later call whose `listing_id`
is already stored — with identical or different fields, in the same or
a later cycle — returns `false` and leaves the whole table, hence every
stored field, unchanged. -/
theorem observe_first_write_wins :
    (∀ (db : Db) (l : Listing), l.listing_id ∉ dbKeys db →
      Database.add_listing db l none = (true, db ++ [⟨l, []⟩]) ∧
      lookupRow (Database.add_listing db l none).2 l.listing_id = some ⟨l, []⟩) ∧
    (∀ (db : Db) (l : Listing), l.listing_id ∈ dbKeys db →
      Database.add_listing db l none = (false, db)) := by
  constructor
  · intro db l h
    have h1 := add_listing_of_fresh db l h
    refine ⟨h1, ?_⟩
    rw [h1]
    have hn : lookupRow db l.listing_id = none := (lookupRow_eq_none_iff db _).mpr h
    unfold lookupRow at hn ⊢
    rw [find?_append_of_none _ _ _ hn]
    simp [List.find?]
  · exact add_listing_of_present

/-- Witness for C3: id "a" is fresh in the empty table, the first call
commits and answers `true`; after it, a second call with different
fields answers `false` and changes nothing. -/
theorem observe_first_write_wins_witness :
    Database.add_listing [] (capDemoListing 0) none = (true, [⟨(capDemoListing 0), []⟩]) ∧
    Database.add_listing [⟨(capDemoListing 0), []⟩]
        { (capDemoListing 0) with address := "другой адрес" } none
      = (false, [⟨(capDemoListing 0), []⟩]) :=
  ⟨(observe_first_write_wins.1 [] (capDemoListing 0) (by decide)).1,
   observe_first_write_wins.2 [⟨(capDemoListing 0), []⟩]
     { (capDemoListing 0) with address := "другой адрес" } (by decide)⟩

/-- **C7.** A storage error other than the duplicate-key
`IntegrityError` during `add_listing` (the `Observe` operation) is
caught and answered with the fail-closed `false` ("not first-seen"),
leaving the table unchanged, instead of propagating. -/
theorem observe_fail_closed :
    ∀ (db : Db) (l : Listing),
      Database.add_listing db l (some SqliteError.ioError) = (false, db) := by
  intro db l
  rfl

theorem roomsGuard_eq (f : FilterSpec) (l : Listing) :
    (match f.rooms with | some r => l.rooms != some r | none => false)
      = !claimRoomsSat f l := by
  rcases hfr : f.rooms with _ | r <;> simp [claimRoomsSat, hfr, bne]

theorem minGuard_eq (f : FilterSpec) (l : Listing) :
    (match f.min_price_usd, l.price_usd with
     | some m, some p => decide (p < m) | _, _ => false)
      = !claimMinSat f l := by
  rcases hf : f.min_price_usd with _ | m <;> rcases hl : l.price_usd with _ | p <;>
    simp [claimMinSat, hf, hl, ← decide_not, not_le]

theorem maxGuard_eq (f : FilterSpec) (l : Listing) :
    (match f.max_price_usd, l.price_usd with
     | some m, some p => decide (p > m) | _, _ => false)
      = !claimMaxSat f l := by
  rcases hf : f.max_price_usd with _ | m <;> rcases hl : l.price_usd with _ | p <;>
    simp [claimMaxSat, hf, hl, ← decide_not, not_le]

theorem matchesCity_eq (f : FilterSpec) (l : Listing) :
    matchesCity f l = .ok (specCitySat f l) := by
  unfold matchesCity specCitySat
  cases f.city with
  | none => rfl
  | some c =>
    simp only []
    by_cases h1 : pyLower l.address = "" ∨ strContains (pyLower l.address) "адрес не указан"
    · have : (pyLower l.address == "" || strContains (pyLower l.address) "адрес не указан") = true := by
        rcases h1 with h | h <;> simp [h]
      simp [h1, this]
    · have : (pyLower l.address == "" || strContains (pyLower l.address) "адрес не указан") = false := by
        push_neg at h1
        simp [h1.1, h1.2]
      simp [h1, this]
      by_cases h2 : strContains (pyLower l.address) (pyLower c) = true <;> simp [h2]

/-- **C4 (amended).** For every FilterSpec and every listing whose
fields have the documented types (in particular a string `landlord`),
`matches` returns exactly the conjunction of the per-field policies:
exact rooms match (absent rooms fails a set predicate), soft USD
bounds (absent price satisfies them), case-insensitive exact landlord
match, and the **corrected** city policy: a set city predicate is
satisfied when the lowered address is empty or contains the
"адрес не указан" marker (not only when it *is* the marker), and
otherwise requires a case-insensitive substring match; unset
predicates are always satisfied. -/
theorem matches_eq_policy (f : FilterSpec) (l : Listing) (s : String)
    (hs : l.landlord = some s) :
    ListingFilter.matches f l = .ok (specMatches f l) := by
  unfold ListingFilter.matches specMatches
  rw [roomsGuard_eq, minGuard_eq, maxGuard_eq]
  cases hR : claimRoomsSat f l with
  | false => simp
  | true =>
    cases hm : claimMinSat f l with
    | false => simp
    | true =>
      cases hM : claimMaxSat f l with
      | false => simp
      | true =>
        simp only [Bool.not_true, Bool.false_eq_true, if_false, Bool.true_and]
        cases hfl : f.landlord with
        | none =>
          have : claimLandlordSat f l = true := by simp [claimLandlordSat, hfl]
          rw [this, matchesCity_eq]
          simp
        | some fl =>
          rw [hs]
          have hcl : claimLandlordSat f l = (pyLower s == pyLower fl) := by
            simp [claimLandlordSat, hfl, hs]
          by_cases h2 : pyLower s = pyLower fl
          · simp only [h2, ne_eq, not_true_eq_false, if_false, matchesCity_eq]
            rw [hcl]
            simp [h2]
          · simp only [ne_eq, h2, not_false_eq_true, if_true]
            rw [hcl]
            have : (pyLower s == pyLower fl) = false := by simp [h2]
            simp [this]

/-- **C4 (counterexample).** The claim's per-field policy differs from
the code on the city predicate: for an address that merely *contains*
the "адрес не указан" marker (here with other text around it), the code
skips the city constraint and accepts, while the claim's policy — skip
only when the address *is* the marker, otherwise require a substring
match — rejects.  (The code also skips for an empty address.) -/
theorem matches_policy_counterexample :
    ListingFilter.matches { city := some "минск" }
        { listing_id := "x", source := "Kufar",
          address := "гомель, адрес не указан, д. 5",
          rooms := none, price_byn := none, price_usd := none,
          landlord := some "Собственник", url := "u" }
      = .ok true ∧
    claimMatches { city := some "минск" }
        { listing_id := "x", source := "Kufar",
          address := "гомель, адрес не указан, д. 5",
          rooms := none, price_byn := none, price_usd := none,
          landlord := some "Собственник", url := "u" }
      = false := by
  constructor
  · rfl
  · decide

/-- Witness for C4 (amended): a concrete listing with `price_usd = 200`
against `min_price_usd = 300` — the theorem applies and both sides
evaluate to a rejection. -/
theorem matches_eq_policy_witness :
    ListingFilter.matches { min_price_usd := some 300 }
        { listing_id := "w", source := "Onliner", address := "Минск",
          rooms := some 2, price_byn := none, price_usd := some 200,
          landlord := some "Собственник", url := "u" }
      = .ok false :=
  (matches_eq_policy { min_price_usd := some 300 }
      { listing_id := "w", source := "Onliner", address := "Минск",
        rooms := some 2, price_byn := none, price_usd := some 200,
        landlord := some "Собственник", url := "u" }
      "Собственник" rfl).trans (by rfl)

/-- **C10 (counterexample).** The claim quantifies over *any* filter
with a set landlord field; but a filter that also sets `rooms` rejects
the Kufar fallback record (absent rooms) before the landlord check is
reached, returning `.ok false` instead of raising. -/
theorem matches_fallback_counterexample :
    ListingFilter.matches { rooms := some 1, landlord := some "Собственник" }
        (kufarFallbackListing "x" "https://re.kufar.by/v/123")
      = .ok false ∧
    .ok false ≠ (.error .attributeError : Except PyError Bool) := by
  exact ⟨rfl, by simp⟩

/-- **C10 (amended).** `ListingFilter.matches` is not total over adapter
outputs: the Kufar fallback record carries `landlord = None`, and for
every filter whose landlord field is set and whose rooms field is
unset, `matches` reaches `None.lower()` and raises `AttributeError`
instead of returning a boolean. -/
theorem matches_fallback_raises (lid href fl : String) (f : FilterSpec)
    (hr : f.rooms = none) (hl : f.landlord = some fl) :
    ListingFilter.matches f (kufarFallbackListing lid href)
      = .error .attributeError := by
  unfold ListingFilter.matches kufarFallbackListing
  rcases f with ⟨fr, fmin, fmax, flan, fcity⟩
  simp only at hr hl
  subst hr hl
  cases fmin <;> cases fmax <;> rfl

/-- Witness for C10 (amended): the concrete landlord-only filter raises
on the concrete fallback record. -/
theorem matches_fallback_raises_witness :
    ListingFilter.matches { landlord := some "Собственник" }
        (kufarFallbackListing "abc" "https://re.kufar.by/v/123")
      = .error .attributeError :=
  matches_fallback_raises "abc" "https://re.kufar.by/v/123" "Собственник"
    { landlord := some "Собственник" } rfl rfl

/-- **C8 (counterexample).** With both transports returning usable
content, `KufarParser.parse_listings` attempts the rendered browser
session *first* and returns its body — the claim's primary transport
(the fast stateless HTTP fetch) is not attempted first. -/
theorem transport_order_counterexample :
    (kufarFetchHtml (some "browser-body") (some "http-body")).2.head?
        = some Transport.browser ∧
    Transport.browser ≠ Transport.http ∧
    (kufarFetchHtml (some "browser-body") (some "http-body")).1
        = some "browser-body" := by
  refine ⟨rfl, by simp, rfl⟩

/-- **C8 (amended).** The transport-fallback roles are swapped relative
to the claim: `KufarParser.parse_listings` attempts the rendered
browser session first and falls back to the plain HTTP fetch only when
the browser yields no usable content (`None` or an empty body); and
`BaseParser.fetch_page_prefer_browser` uses exactly one transport —
the browser whenever a session is supplied (without HTTP fallback even
on failure), HTTP otherwise. -/
theorem transport_browser_first (b h : Option String) :
    (truthyHtml b = true → kufarFetchHtml b h = (b, [Transport.browser])) ∧
    (truthyHtml b = false →
      kufarFetchHtml b h = (h, [Transport.browser, Transport.http])) ∧
    fetchPagePreferBrowser true b h = (b, [Transport.browser]) ∧
    fetchPagePreferBrowser false b h = (h, [Transport.http]) := by
  refine ⟨fun hb => ?_, fun hb => ?_, rfl, rfl⟩ <;> simp [kufarFetchHtml, hb]

/-- Witness for C8 (amended): concrete bodies; a usable browser body is
returned with no HTTP attempt, an empty browser body falls back. -/
theorem transport_browser_first_witness :
    kufarFetchHtml (some "B") (some "H") = (some "B", [Transport.browser]) ∧
    kufarFetchHtml (some "") (some "H")
      = (some "H", [Transport.browser, Transport.http]) :=
  ⟨(transport_browser_first (some "B") (some "H")).1 rfl,
   (transport_browser_first (some "") (some "H")).2.1 rfl⟩

/-- **C6 (counterexample).** On text with no landlord signal at all
("Сдам квартиру" holds neither an owner nor an agency keyword) and no
structured flag, both the text classifier `_extract_landlord` and the
Kufar JSON priority chain return `"Агентство"` (Agency), not the
claimed Owner default. -/
theorem landlord_default_counterexample :
    extractLandlord "Сдам квартиру" = "Агентство" ∧
    kufarLandlordFromJson none "" [] "Сдам квартиру" = "Агентство" ∧
    "Агентство" ≠ "Собственник" := by
  refine ⟨by decide, by decide, by decide⟩

/-- **C6 (amended).** The text classifier returns Owner
(`"Собственник"`) exactly when an owner keyword occurs — so Owner wins
whenever both owner and agency signals appear — and otherwise defaults
to Agency (`"Агентство"`), not Owner.  In the Kufar JSON chain the
structured `company_ad` flag always takes priority over the text
heuristics, and the Owner default applies only when no signal *and* no
subject text is available. -/
theorem landlord_classifier_behavior :
    (∀ t : String,
      ownerKeywords.any (fun k => strContains (pyLower t) k) = false →
        extractLandlord t = "Агентство") ∧
    (∀ t : String,
      ownerKeywords.any (fun k => strContains (pyLower t) k) = true →
        extractLandlord t = "Собственник") ∧
    kufarLandlordFromJson none "" [] "" = "Собственник" ∧
    (∀ (acct subj : String) (ps : List AdParam),
      kufarLandlordFromJson (some false) acct ps subj = "Собственник") ∧
    (∀ (acct subj : String) (ps : List AdParam),
      kufarLandlordFromJson (some true) acct ps subj = "Агентство") := by
  refine ⟨fun t ht => ?_, fun t ht => ?_, rfl, fun _ _ _ => rfl, fun _ _ _ => rfl⟩ <;>
    simp [extractLandlord, ht]

/-- Witness for C6 (amended): concrete keyword-free and keyword-bearing
texts. -/
theorem landlord_classifier_behavior_witness :
    extractLandlord "Сдам квартиру в центре" = "Агентство" ∧
    extractLandlord "сдает собственник, агентство не беспокоить" = "Собственник" :=
  ⟨landlord_classifier_behavior.1 "Сдам квартиру в центре" (by decide),
   landlord_classifier_behavior.2.1 "сдает собственник, агентство не беспокоить" (by decide)⟩

/-- **C5 (counterexample).** Both currencies present with
`price_byn / price_usd = 12.5 > 10`, yet the normalizer leaves
`price_byn = 5000` untouched: the ratio correction is additionally
guarded by `price_byn > 10000`, which the claim omits. -/
theorem unit_correction_counterexample :
    kufarNormalizePrices (some 5000) (some 400) = (some 5000, some 400) ∧
    (5000 : ℚ) / 400 > 10 ∧
    (5000 : ℚ) / 100 ≠ 5000 := by
  refine ⟨by norm_num [kufarNormalizePrices], by norm_num, by norm_num⟩

/-- **C5 (amended).** After both currency candidates are extracted, the
BYN minor-unit correction fires when `price_byn > 10000` *and* (after
the USD cents correction) `price_usd` is positive with
`price_byn / price_usd > 10`; it divides `price_byn` by 100 exactly
once.  In particular `price_byn = 130000, price_usd = 450` normalizes
to `(1300, 450)`. -/
theorem unit_correction_behavior :
    (∀ b u0 : ℚ, b > 10000 →
      (if u0 > 1000 then u0 / 100 else u0) > 0 →
      b / (if u0 > 1000 then u0 / 100 else u0) > 10 →
      kufarNormalizePrices (some b) (some u0)
        = (some (b / 100), some (if u0 > 1000 then u0 / 100 else u0))) ∧
    kufarNormalizePrices (some 130000) (some 450) = (some 1300, some 450) := by
  constructor
  · intro b u0 hb hu hr
    simp only [kufarNormalizePrices, if_pos hb, if_pos hu, if_pos hr]
  · norm_num [kufarNormalizePrices]

/-- Witness for C5 (amended): the claim's own instance, via the general
statement. -/
theorem unit_correction_behavior_witness :
    kufarNormalizePrices (some 130000) (some 450) = (some 1300, some 450) := by
  have h := unit_correction_behavior.1 130000 450 (by norm_num) (by norm_num) (by norm_num)
  rw [h]
  norm_num

/-- **C9.** The plausibility range of `extract_price` does not reject
out-of-range matches: on the text `"20000 $"` the first USD pattern
matches and the parsed value 20000 is assigned before the range check;
the check only fails to `break`, no later pattern overwrites the
value, and 20000 — outside the claimed open range (0, 10000) — is
returned at face value.  (The in-code comment "Проверяем разумность
цены (не больше 10000 для аренды)" documents the intended rejection.) -/
theorem extract_price_out_of_range :
    BaseParser.extract_price "20000 $" = (none, some 20000) ∧
    ¬ ((0 : ℚ) < 20000 ∧ (20000 : ℚ) < 10000) := by
  exact ⟨by decide, by decide⟩

/-- **C2.** Evaluation of the delivery pipeline at the claim's scenario:
one recipient with one catch-all filter, 20 matching never-seen
listings `L0..L19` fetched in that order, default cap 15, run for five
polling cycles.  The code delivers `L0..L14` — the 15 **earliest**
fetched, not the most recently fetched (`unique_listings[:15]` against
the in-code comment "Ограничиваем до 15 последних объявлений") — and
the remaining `L15..L19`, although marked first-seen in cycle 1, are
never delivered in any later cycle, because redelivery is gated on
`add_listing` returning "new" rather than on not-yet-sent-to-recipient. -/
theorem cap_keeps_first15_and_drops_rest :
    (runCycles [] (List.replicate 5 capDemoCycle)).1
        = (List.range 15).map (fun i => ((1 : Int), "L" ++ toString i)) ∧
    dbKeys (runCycles [] (List.replicate 5 capDemoCycle)).2
        = (List.range 20).map (fun i => "L" ++ toString i) := by
  exact ⟨by decide, by decide⟩

theorem markUpd_id (lid : String) (ns : List Int) (row : DbRow) :
    (markUpd lid ns row).data.listing_id = row.data.listing_id := by
  unfold markUpd
  by_cases h : row.data.listing_id = lid <;> simp [h]

theorem mark_eq_of_none (db : Db) (lid : String) (uid : Int)
    (h : lookupRow db lid = none) :
    Database.mark_listing_sent db lid uid = db := by
  unfold Database.mark_listing_sent
  rw [h]

theorem mark_eq_of_mem (db : Db) (lid : String) (uid : Int) (r : DbRow)
    (h : lookupRow db lid = some r) (hm : uid ∈ r.sent) :
    Database.mark_listing_sent db lid uid = db := by
  unfold Database.mark_listing_sent
  rw [h]
  simp [hm]

theorem mark_eq_of_not_mem (db : Db) (lid : String) (uid : Int) (r : DbRow)
    (h : lookupRow db lid = some r) (hm : uid ∉ r.sent) :
    Database.mark_listing_sent db lid uid = db.map (markUpd lid (r.sent ++ [uid])) := by
  unfold Database.mark_listing_sent markUpd
  rw [h]
  simp [hm]

theorem lookupRow_map_preserve (db : Db) (lid : String)
    (g : DbRow → DbRow) (hg : ∀ r, (g r).data.listing_id = r.data.listing_id) :
    lookupRow (db.map g) lid = (lookupRow db lid).map g := by
  induction db with
  | nil => rfl
  | cons r rest ih =>
    rw [List.map_cons, lookupRow, List.find?_cons, lookupRow, List.find?_cons]
    rw [show ((g r).data.listing_id == lid) = (r.data.listing_id == lid) by rw [hg]]
    cases hp : (r.data.listing_id == lid) with
    | true => rfl
    | false => exact ih

theorem lookupRow_id (db : Db) (lid : String) (r : DbRow)
    (h : lookupRow db lid = some r) : r.data.listing_id = lid := by
  have := List.find?_some h
  simpa using this

theorem mark_keys (db : Db) (lid : String) (uid : Int) :
    dbKeys (Database.mark_listing_sent db lid uid) = dbKeys db := by
  cases hl : lookupRow db lid with
  | none => rw [mark_eq_of_none db lid uid hl]
  | some r =>
    by_cases hm : uid ∈ r.sent
    · rw [mark_eq_of_mem db lid uid r hl hm]
    · rw [mark_eq_of_not_mem db lid uid r hl hm]
      unfold dbKeys
      rw [List.map_map]
      congr 1
      funext row
      simp [markUpd_id]

theorem mark_sent_mono (db : Db) (lid : String) (uid : Int)
    (lid' : String) (uid' : Int) (h : sentTo db lid' uid') :
    sentTo (Database.mark_listing_sent db lid uid) lid' uid' := by
  unfold sentTo Database.is_listing_sent_to_user at h ⊢
  cases hl : lookupRow db lid with
  | none => rw [mark_eq_of_none db lid uid hl]; exact h
  | some r =>
    by_cases hm : uid ∈ r.sent
    · rw [mark_eq_of_mem db lid uid r hl hm]; exact h
    · rw [mark_eq_of_not_mem db lid uid r hl hm]
      rw [lookupRow_map_preserve db lid' _ (markUpd_id lid (r.sent ++ [uid]))]
      cases hl' : lookupRow db lid' with
      | none => rw [hl'] at h; exact Bool.noConfusion h
      | some r' =>
        rw [hl'] at h
        simp only [Option.map_some']
        unfold markUpd
        by_cases hid : r'.data.listing_id = lid
        · have hr' : r'.data.listing_id = lid' := lookupRow_id db lid' r' hl'
          have heq : lid = lid' := by rw [← hid, hr']
          subst heq
          rw [hl] at hl'
          injection hl' with hrr
          subst hrr
          simp only [hid, if_true]
          simp only [decide_eq_true_eq] at h ⊢
          exact List.mem_append_left _ h
        · simp only [hid, if_false]
          exact h

theorem mark_idem (db : Db) (lid : String) (uid : Int) :
    Database.mark_listing_sent (Database.mark_listing_sent db lid uid) lid uid
      = Database.mark_listing_sent db lid uid := by
  cases hl : lookupRow db lid with
  | none =>
    rw [mark_eq_of_none db lid uid hl, mark_eq_of_none db lid uid hl]
  | some r =>
    by_cases hm : uid ∈ r.sent
    · rw [mark_eq_of_mem db lid uid r hl hm, mark_eq_of_mem db lid uid r hl hm]
    · rw [mark_eq_of_not_mem db lid uid r hl hm]
      have hl2 : lookupRow (db.map (markUpd lid (r.sent ++ [uid]))) lid
          = some (markUpd lid (r.sent ++ [uid]) r) := by
        rw [lookupRow_map_preserve db lid _ (markUpd_id lid (r.sent ++ [uid])), hl]
        rfl
      have hr : r.data.listing_id = lid := lookupRow_id db lid r hl
      have hmem : uid ∈ (markUpd lid (r.sent ++ [uid]) r).sent := by
        unfold markUpd
        simp [hr]
      exact mark_eq_of_mem _ lid uid _ hl2 hmem

theorem add_sent_mono (db : Db) (l : Listing) (lid : String) (uid : Int)
    (h : sentTo db lid uid) :
    sentTo (Database.add_listing db l none).2 lid uid := by
  unfold sentTo Database.is_listing_sent_to_user at h ⊢
  cases hl : lookupRow db lid with
  | none => rw [hl] at h; exact Bool.noConfusion h
  | some r =>
    rw [hl] at h
    unfold Database.add_listing insertListing
    by_cases hp : (lookupRow db l.listing_id).isSome = true
    · simp only [hp, if_true]
      rw [hl]
      exact h
    · simp only [hp, if_false, Bool.false_eq_true]
      unfold lookupRow at hl ⊢
      rw [find?_append_of_some _ _ _ _ hl]
      exact h

theorem add_keys (db : Db) (l : Listing) :
    dbKeys (Database.add_listing db l none).2 = dbKeys db ∨
    dbKeys (Database.add_listing db l none).2 = dbKeys db ++ [l.listing_id] := by
  unfold Database.add_listing insertListing
  by_cases hp : (lookupRow db l.listing_id).isSome = true
  · simp [hp]
  · simp only [hp, if_false, Bool.false_eq_true]
    right
    simp [dbKeys]

theorem StageOk.same (db : Db) : StageOk db [] db :=
  ⟨fun _ h => h, fun _ _ => List.not_mem_nil _, fun _ h => absurd h (List.not_mem_nil _),
   fun _ => by simp, fun _ _ h => h⟩

theorem StageOk.comp {db db1 db2 : Db} {o1 o2 : List String}
    (s1 : StageOk db o1 db1) (s2 : StageOk db1 o2 db2) :
    StageOk db (o1 ++ o2) db2 := by
  refine ⟨fun lid h => s2.keysMono lid (s1.keysMono lid h), ?_, ?_, ?_,
    fun lid uid h => s2.sentMono lid uid (s1.sentMono lid uid h)⟩
  · intro lid h
    rw [List.mem_append]
    push_neg
    exact ⟨s1.oldNotOut lid h, s2.oldNotOut lid (s1.keysMono lid h)⟩
  · intro lid h
    rcases List.mem_append.mp h with h1 | h2
    · exact s2.keysMono lid (s1.outKeys lid h1)
    · exact s2.outKeys lid h2
  · intro lid
    rw [List.count_append]
    by_cases h1 : lid ∈ o1
    · have h0 : lid ∈ dbKeys db1 := s1.outKeys lid h1
      have h2 : lid ∉ o2 := s2.oldNotOut lid h0
      have : o2.count lid = 0 := List.count_eq_zero.mpr h2
      rw [this]
      simpa using s1.outOnce lid
    · have : o1.count lid = 0 := List.count_eq_zero.mpr h1
      rw [this]
      simpa using s2.outOnce lid

theorem StageOk.subOut {db db' : Db} {out out' : List String}
    (h : List.Sublist out' out) (s : StageOk db out db') : StageOk db out' db' :=
  ⟨s.keysMono,
   fun lid hm hc => s.oldNotOut lid hm (h.subset hc),
   fun lid hm => s.outKeys lid (h.subset hm),
   fun lid => le_trans (h.count_le lid) (s.outOnce lid),
   s.sentMono⟩

theorem StageOk.pureDb {db db' : Db}
    (hk : dbKeys db' = dbKeys db)
    (hs : ∀ lid uid, sentTo db lid uid → sentTo db' lid uid) :
    StageOk db [] db' :=
  ⟨fun lid h => hk ▸ h, fun _ _ => List.not_mem_nil _,
   fun _ h => absurd h (List.not_mem_nil _), fun _ => by simp, hs⟩

/-- `add_listing` as a stage: it outputs the id exactly when it reports
the listing as new. -/
theorem addStage (db : Db) (l : Listing) :
    StageOk db (if (Database.add_listing db l none).1 then [l.listing_id] else [])
      (Database.add_listing db l none).2 := by
  by_cases hp : (lookupRow db l.listing_id).isSome = true
  · have hmem : l.listing_id ∈ dbKeys db := (lookupRow_isSome_iff db _).mp hp
    have hres : Database.add_listing db l none = (false, db) :=
      add_listing_of_present db l hmem
    rw [hres]
    show StageOk db [] db
    exact StageOk.same db
  · have hfresh : l.listing_id ∉ dbKeys db := by
      intro hmem
      exact hp ((lookupRow_isSome_iff db _).mpr hmem)
    have hres : Database.add_listing db l none = (true, db ++ [⟨l, []⟩]) :=
      add_listing_of_fresh db l hfresh
    rw [hres]
    show StageOk db [l.listing_id] (db ++ [⟨l, []⟩])
    have hkeys : dbKeys (db ++ [(⟨l, []⟩ : DbRow)]) = dbKeys db ++ [l.listing_id] := by
      simp [dbKeys]
    refine ⟨?_, ?_, ?_, ?_, ?_⟩
    · intro lid h
      rw [hkeys]
      exact List.mem_append_left _ h
    · intro lid h hc
      rw [List.mem_singleton] at hc
      subst hc
      exact hfresh h
    · intro lid h
      rw [List.mem_singleton] at h
      subst h
      rw [hkeys]
      exact List.mem_append_right _ (List.mem_singleton_self _)
    · intro lid
      simp [List.count_singleton']
      split <;> omega
    · intro lid uid h
      unfold sentTo Database.is_listing_sent_to_user at h ⊢
      cases hl : lookupRow db lid with
      | none => rw [hl] at h; exact Bool.noConfusion h
      | some r =>
        rw [hl] at h
        unfold lookupRow at hl ⊢
        rw [find?_append_of_some _ _ _ _ hl]
        exact h

theorem filterLoop_ok (f : FilterSpec) (uid : Int) :
    ∀ (fetched : List Listing) (db : Db) (res : Except PyError (List Listing))
      (db' : Db), filterLoop f uid db fetched = (res, db') →
      StageOk db (outOf res) db' := by
  intro fetched
  induction fetched with
  | nil =>
    intro db res db' heq
    simp only [filterLoop] at heq
    cases heq
    exact StageOk.same db
  | cons l rest ih =>
    intro db res db' heq
    simp only [filterLoop] at heq
    split at heq
    next e hm =>
      cases heq
      exact StageOk.same db
    next m hm =>
      by_cases hmm : m = true
      case pos =>
        subst hmm
        rw [if_pos rfl] at heq
        rcases hrec : filterLoop f uid (Database.add_listing db l none).2 rest with ⟨res2, dbf⟩
        rw [hrec] at heq
        have hadd := addStage db l
        cases res2 with
        | ok acc =>
          cases heq
          have hih := ih (Database.add_listing db l none).2 (.ok acc) db' hrec
          have hcomp := StageOk.comp hadd hih
          refine StageOk.subOut ?_ hcomp
          by_cases hkeep : ((Database.add_listing db l none).1
              && !(Database.is_listing_sent_to_user (Database.add_listing db l none).2
                    l.listing_id uid)) = true
          · have hp1 : (Database.add_listing db l none).1 = true :=
              (Bool.and_eq_true ..).mp hkeep |>.1
            rw [if_pos hkeep, hp1]
            simp only [outOf, if_pos rfl, List.map_cons]
            exact List.Sublist.refl _
          · rw [if_neg hkeep]
            simp only [outOf]
            exact List.sublist_append_right _ _
        | error e =>
          cases heq
          have hih := ih (Database.add_listing db l none).2 (.error e) db' hrec
          have hcomp := StageOk.comp hadd hih
          refine StageOk.subOut ?_ hcomp
          simp only [outOf]
          exact List.nil_sublist _
      case neg =>
        rw [if_neg hmm] at heq
        exact ih db res db' heq

theorem fetch_and_filter_ok (f : FilterSpec) (uid : Int) (db : Db)
    (fetched : List Listing) (res : Except PyError (List Listing)) (db' : Db)
    (heq : ListingService.fetch_and_filter_listings f uid db fetched = (res, db')) :
    StageOk db (outOf res) db' := by
  unfold ListingService.fetch_and_filter_listings at heq
  rcases hfl : filterLoop f uid db fetched with ⟨res0, db0⟩
  rw [hfl] at heq
  cases res0 with
  | ok ls =>
    cases heq
    refine StageOk.subOut ?_ (filterLoop_ok f uid fetched db (.ok ls) db' hfl)
    simp only [outOf]
    exact List.Sublist.map _ (List.take_sublist 15 ls)
  | error e =>
    cases heq
    exact filterLoop_ok f uid fetched db (.error e) db' hfl

theorem runFilterCalls_ok (uid : Int) :
    ∀ (calls : List (FilterSpec × List Listing)) (db : Db)
      (res : Except PyError (List Listing)) (db' : Db),
      runFilterCalls uid db calls = (res, db') → StageOk db (outOf res) db' := by
  intro calls
  induction calls with
  | nil =>
    intro db res db' heq
    simp only [runFilterCalls] at heq
    cases heq
    exact StageOk.same db
  | cons c rest ih =>
    intro db res db' heq
    rcases c with ⟨f, fetched⟩
    simp only [runFilterCalls] at heq
    split at heq
    next e db0 hff =>
      cases heq
      exact fetch_and_filter_ok f uid db fetched (.error e) db' hff
    next ls db0 hff =>
      split at heq
      next more dbf hrec =>
        cases heq
        have h0 := fetch_and_filter_ok f uid db fetched (.ok ls) db0 hff
        have h1 := ih db0 (.ok more) db' hrec
        have := StageOk.comp h0 h1
        simpa [outOf] using this
      next e dbf hrec =>
        cases heq
        have h0 := fetch_and_filter_ok f uid db fetched (.ok ls) db0 hff
        have h1 := ih db0 (.error e) db' hrec
        refine StageOk.subOut ?_ (StageOk.comp h0 h1)
        simp only [outOf]
        exact List.nil_sublist _

theorem dedupById_sublist : ∀ (ls : List Listing) (seen : List String),
    List.Sublist (dedupById seen ls) ls := by
  intro ls
  induction ls with
  | nil => intro seen; simp [dedupById]
  | cons l rest ih =>
    intro seen
    simp only [dedupById]
    by_cases h : seen.contains l.listing_id
    · simp only [h, if_true]
      exact List.Sublist.cons l (ih seen)
    · simp only [h, if_false, Bool.false_eq_true]
      exact List.Sublist.cons₂ l (ih (l.listing_id :: seen))

theorem sendLoop_deliveries (uid : Int) :
    ∀ (ls : List Listing) (db : Db),
      (sendLoop uid db ls).1 = ls.map (fun l => (uid, l.listing_id)) := by
  intro ls
  induction ls with
  | nil => intro db; rfl
  | cons l rest ih =>
    intro db
    simp only [sendLoop, List.map_cons]
    rw [ih]

theorem sendLoop_keys (uid : Int) :
    ∀ (ls : List Listing) (db : Db), dbKeys (sendLoop uid db ls).2 = dbKeys db := by
  intro ls
  induction ls with
  | nil => intro db; rfl
  | cons l rest ih =>
    intro db
    simp only [sendLoop]
    rw [ih, mark_keys]

theorem sendLoop_sent_mono (uid : Int) :
    ∀ (ls : List Listing) (db : Db) (lid : String) (u : Int),
      sentTo db lid u → sentTo (sendLoop uid db ls).2 lid u := by
  intro ls
  induction ls with
  | nil => intro db lid u h; exact h
  | cons l rest ih =>
    intro db lid u h
    simp only [sendLoop]
    exact ih _ lid u (mark_sent_mono db l.listing_id uid lid u h)

theorem periodicCheckUser_ok (db : Db) (uid : Int)
    (calls : List (FilterSpec × List Listing))
    (res : Except PyError (List (Int × String))) (db' : Db)
    (heq : periodicCheckUser db uid calls = (res, db')) :
    StageOk db (outOfD res) db' := by
  unfold periodicCheckUser at heq
  rcases hrc : runFilterCalls uid db calls with ⟨res0, db0⟩
  rw [hrc] at heq
  cases res0 with
  | error e =>
    cases heq
    exact runFilterCalls_ok uid calls db (.error e) db' hrc
  | ok all =>
    simp only at heq
    cases heq
    have h0 := runFilterCalls_ok uid calls db (.ok all) db0 hrc
    have hsend : StageOk db0 [] (sendLoop uid db0
        (if (dedupById [] all).length > 15
         then (dedupById [] all).drop ((dedupById [] all).length - 15)
         else dedupById [] all)).2 :=
      StageOk.pureDb (sendLoop_keys uid _ db0) (fun lid u h => sendLoop_sent_mono uid _ db0 lid u h)
    have hcomp := StageOk.comp h0 hsend
    rw [List.append_nil] at hcomp
    refine StageOk.subOut ?_ hcomp
    simp only [outOfD, outOf]
    rw [sendLoop_deliveries]
    have hsub1 : List.Sublist
        (if (dedupById [] all).length > 15
         then (dedupById [] all).drop ((dedupById [] all).length - 15)
         else dedupById [] all) (dedupById [] all) := by
      split
      · exact List.drop_sublist _ _
      · exact List.Sublist.refl _
    have hsub : List.Sublist
        (if (dedupById [] all).length > 15
         then (dedupById [] all).drop ((dedupById [] all).length - 15)
         else dedupById [] all) all :=
      hsub1.trans (dedupById_sublist all [])
    have hfun : (Prod.snd ∘ fun l : Listing => (uid, l.listing_id))
        = fun l : Listing => l.listing_id := rfl
    rw [List.map_map, hfun]
    exact List.Sublist.map _ hsub

theorem periodicCheck_ok :
    ∀ (users : List UserCycle) (db : Db),
      StageOk db ((periodicCheck db users).1.map Prod.snd) (periodicCheck db users).2 := by
  intro users
  induction users with
  | nil => intro db; exact StageOk.same db
  | cons uc rest ih =>
    intro db
    simp only [periodicCheck]
    rcases hu : periodicCheckUser db uc.uid uc.calls with ⟨res0, db0⟩
    have h0 := periodicCheckUser_ok db uc.uid uc.calls res0 db0 hu
    cases res0 with
    | error e =>
      simp only [List.map_nil]
      exact StageOk.subOut (List.nil_sublist _) h0
    | ok ds =>
      simp only [List.map_append]
      exact StageOk.comp (by simpa [outOfD] using h0) (ih db0)

theorem runCycles_ok :
    ∀ (cycles : List (List UserCycle)) (db : Db),
      StageOk db ((runCycles db cycles).1.map Prod.snd) (runCycles db cycles).2 := by
  intro cycles
  induction cycles with
  | nil => intro db; exact StageOk.same db
  | cons c rest ih =>
    intro db
    simp only [runCycles, List.map_append]
    exact StageOk.comp (periodicCheck_ok c db) (ih (periodicCheck db c).2)

theorem count_pair_le_count_snd (ds : List (Int × String)) (uid : Int) (lid : String) :
    ds.count (uid, lid) ≤ (ds.map Prod.snd).count lid := by
  induction ds with
  | nil => simp
  | cons d rest ih =>
    rw [List.count_cons, List.map_cons, List.count_cons]
    by_cases h : d = (uid, lid)
    · subst h
      simp only [beq_self_eq_true, if_true]
      omega
    · have h2 : (d == (uid, lid)) = false := by
        rw [beq_eq_false_iff_ne]
        exact h
      rw [h2]
      cases h3 : (d.2 == lid) <;> simp <;> omega

/-- **C1.** The per-(listing, recipient) delivery state only grows and
delivery is at-most-once: (1) calling `mark_listing_sent` N > 1 times
equals calling it once (re-adding a present recipient is a no-op);
(2) `mark_listing_sent` never removes a recorded recipient (for any
pair); (3) `add_listing` never removes a recorded recipient; (4) no
number of polling cycles (`periodic_check` runs over any users,
filters, and fetched listings) removes a recorded recipient; and
(5) across any number of polling cycles from any starting store, a
given listing is sent to a given recipient at most once. -/
theorem delivery_at_most_once :
    (∀ (db : Db) (lid : String) (uid : Int) (n : Nat),
      (fun d => Database.mark_listing_sent d lid uid)^[n + 1] db
        = Database.mark_listing_sent db lid uid) ∧
    (∀ (db : Db) (lid : String) (uid : Int) (lid' : String) (uid' : Int),
      sentTo db lid uid → sentTo (Database.mark_listing_sent db lid' uid') lid uid) ∧
    (∀ (db : Db) (l : Listing) (lid : String) (uid : Int),
      sentTo db lid uid → sentTo (Database.add_listing db l none).2 lid uid) ∧
    (∀ (db : Db) (cycles : List (List UserCycle)) (lid : String) (uid : Int),
      sentTo db lid uid → sentTo (runCycles db cycles).2 lid uid) ∧
    (∀ (db : Db) (cycles : List (List UserCycle)) (uid : Int) (lid : String),
      (runCycles db cycles).1.count (uid, lid) ≤ 1) := by
  refine ⟨?_, ?_, ?_, ?_, ?_⟩
  · intro db lid uid n
    induction n with
    | zero => rfl
    | succ k ihk =>
      rw [Function.iterate_succ_apply']
      rw [ihk]
      exact mark_idem db lid uid
  · intro db lid uid lid' uid' h
    exact mark_sent_mono db lid' uid' lid uid h
  · intro db l lid uid h
    exact add_sent_mono db l lid uid h
  · intro db cycles lid uid h
    exact (runCycles_ok cycles db).sentMono lid uid h
  · intro db cycles uid lid
    exact le_trans (count_pair_le_count_snd _ uid lid)
      ((runCycles_ok cycles db).outOnce lid)

/-- Witness for C1: a store where recipient 7 already received `L0`;
marking another pair, observing a new listing, and a full polling cycle
all keep that record, via the theorem at these concrete inputs. -/
theorem delivery_at_most_once_witness :
    sentTo (Database.mark_listing_sent [⟨capDemoListing 0, [7]⟩] "L1" 8) "L0" 7 ∧
    sentTo (Database.add_listing [⟨capDemoListing 0, [7]⟩] (capDemoListing 1) none).2 "L0" 7 ∧
    sentTo (runCycles [⟨capDemoListing 0, [7]⟩] [capDemoCycle]).2 "L0" 7 :=
  ⟨delivery_at_most_once.2.1 [⟨capDemoListing 0, [7]⟩] "L0" 7 "L1" 8 (by unfold sentTo; decide),
   delivery_at_most_once.2.2.1 [⟨capDemoListing 0, [7]⟩] (capDemoListing 1) "L0" 7 (by unfold sentTo; decide),
   delivery_at_most_once.2.2.2.1 [⟨capDemoListing 0, [7]⟩] [capDemoCycle] "L0" 7 (by unfold sentTo; decide)⟩
